import Mathlib

/-!
Verification of the `page-object` repository (a DOM-query proxy layer for UI
tests) against its natural-language specification.

The development shallowly embeds the selector-resolution core:

* a DOM tree model (`Dom`) with pre-order traversal (`descendList`), the query
  API (`querySelectorAll` / `querySelector`) and parent lookup
  (`parentElement`);
* the `PageObject2.js` resolution functions `getContainer`, `selectAsString`,
  `selectAsFunction`, the `makeSelector` element/text accessors and the
  forwarding proxy `get` trap;
* the `PageSelector` class (the `src/unnamed/part_000` revision, whose methods
  coincide with `src/src/PageSelector.js` except where noted):
  `element`, `allElements`, `count`, `exists`, `elementAt`, `value` (getter
  and setter), `text`, `nth`, `nthChild`, `clickElement`;
* the polling wait of `src/src/util.js` (`doWait` / `waitForMe`) over an
  idealized discrete clock where a `setTimeout(f, d)` scheduled at time `t`
  fires at `t + d`.

JavaScript values that can be an element, `null` or `undefined` are embedded
as `JsVal`; code that can throw is embedded as `Except SelErr`.
-/

namespace PageObject

/-- The element-local data the repository inspects: tag name, the `type`
attribute of inputs/buttons, the control `value`, the text content (modelled
as a per-node string, which is how every claim exercises it) and the
`checked` flag. -/
structure ElemData where
  tag : String
  type : String
  value : String
  text : String
  checked : Bool
deriving DecidableEq

/-- A DOM element: an identity (standing for JS reference identity — the
JavaScript code compares nodes with `===`, which we model as id equality;
documents are built with distinct ids for distinct nodes), its data, and
its child list in document order. -/
inductive Dom where
  | node (id : Nat) (data : ElemData) (kids : List Dom)

def Dom.data : Dom → ElemData
  | .node _ d _ => d

def Dom.kids : Dom → List Dom
  | .node _ _ k => k

def Dom.idOf : Dom → Nat
  | .node i _ _ => i

/-- A CSS selector, modelled semantically: a base selector is a predicate on
an element's own data (covering tag and attribute selectors such as
`[data-testid=foo]`), and `sel:nth-child(k)` additionally constrains the
(1-based) position of the element among its parent's children. -/
inductive Sel where
  | base (p : ElemData → Bool)
  | nthKid (s : Sel) (k : Nat)

/-- Whether an element whose 1-based position among its siblings is `pos`
matches the selector. -/
def selMatches : Sel → Nat → ElemData → Bool
  | .base p, _, d => p d
  | .nthKid s k, pos, d => selMatches s pos d && pos == k

/-- All strict descendants of the nodes in `cs` (with `cs` themselves),
paired with their 1-based child positions, in document (pre-order) order;
`s` is the position of the first node of `cs` among its siblings. -/
def descendList : List Dom → Nat → List (Nat × Dom)
  | [], _ => []
  | .node i d k :: rest, s =>
      (s, .node i d k) :: (descendList k 1 ++ descendList rest (s + 1))

/-- `root.querySelectorAll(sel)`: every strict descendant of `root` matching
`sel`, in document order. -/
def querySelectorAll (root : Dom) (s : Sel) : List Dom :=
  ((descendList root.kids 1).filter (fun pd => selMatches s pd.1 pd.2.data)).map (·.2)

/-- `root.querySelector(sel)`: the first match in document order, if any. -/
def querySelector (root : Dom) (s : Sel) : Option Dom :=
  (querySelectorAll root s).head?

/-- `t.parentElement` computed inside the document `doc`: the first node (in
pre-order) having `t` among its children, node identity taken by id. -/
def findParentL : List Dom → Dom → Option Dom
  | [], _ => none
  | .node i d k :: rest, t =>
      if k.any (fun c => c.idOf == t.idOf) then some (.node i d k)
      else
        match findParentL k t with
        | some p => some p
        | none => findParentL rest t

def parentElement (doc t : Dom) : Option Dom :=
  findParentL [doc] t

/-- A JavaScript value as seen by the claims: a DOM element, `null`,
`undefined`, a string, a boolean, or a function value. -/
inductive JsVal where
  | el (d : Dom)
  | jsNull
  | undefined
  | str (s : String)
  | bool (b : Bool)
  | fnVal

/-- JavaScript truthiness for the values above (`!attr` in the proxy's
`get` trap). -/
def jsFalsy : JsVal → Bool
  | .el _ => false
  | .jsNull => true
  | .undefined => true
  | .str s => s = ""
  | .bool b => !b
  | .fnVal => false

/-- `list[index]` on a NodeList: the element when `0 ≤ index < length`,
`undefined` otherwise (JavaScript indexing never throws). -/
def jsIndexList (l : List Dom) (i : Int) : JsVal :=
  if i < 0 then .undefined
  else
    match l.get? i.toNat with
    | some e => .el e
    | none => .undefined

/-- `String.prototype.trim`: remove leading and trailing whitespace
(defined over the character list so that concrete inputs evaluate). -/
def jsTrim (s : String) : String :=
  ⟨(((s.data.dropWhile Char.isWhitespace).reverse.dropWhile Char.isWhitespace).reverse)⟩

/-- The events the repository dispatches through the external `fireEvent`
collaborator. -/
inductive DomEvent where
  | change (v : String)
  | click
  | focus
  | blur
  | submit
  | keyDown
  | keyUp
deriving DecidableEq

/-! ## `src/src/PageObject2.js`: `getContainer`, `selectAsString`,
`selectAsFunction`, `makeSelector` -/

/-- The `root` argument of `getContainer`: a string (queried against the
global document), a zero-argument function returning a node, or a node
(possibly `null`/`undefined`, modelled by `Option`). -/
inductive RootSpec where
  | el (e : Option Dom)
  | css (s : Sel)
  | fn (f : Unit → Option Dom)

/-- `getContainer(root)` from `PageObject2.js`, with `doc` standing for the
global `document.body`. -/
def getContainer (doc : Dom) : RootSpec → Option Dom
  | .el e => e
  | .css s => querySelector doc s
  | .fn f => f ()

/-- The errors resolution can throw. `notFound` carries the requested index
and the container's identity (the thrown message interpolates the selector,
index and pretty-printed container); `noContainer` is the "Unable to find
container" error; `typeErr` models the TypeError JavaScript raises when the
container has no parent element and `c.parentElement.querySelector` is
evaluated on `null`. -/
inductive SelErr where
  | noContainer
  | notFound (index : Int) (containerId : Nat)
  | typeErr
deriving DecidableEq

/-- `selectAsString(root, selector, index)` from `PageObject2.js`. -/
def selectAsString (doc : Dom) (root : RootSpec) (sel : Sel) (index : Int) :
    Except SelErr Dom :=
  match getContainer doc root with
  | none => .error .noContainer
  | some c =>
    let list := querySelectorAll c sel
    if list.length = 0 then
      -- If root matches what we are searching for, return root.
      match parentElement doc c with
      | none => .error .typeErr
      | some par =>
        match querySelector par sel with
        | some fromParent =>
            if fromParent.idOf = c.idOf then .ok c
            else .error (.notFound index c.idOf)
        | none => .error (.notFound index c.idOf)
    else if (index : Int) > (list.length : Int) - 1 ∨ index < 0 then
      .error (.notFound index c.idOf)
    else
      match list.get? index.toNat with
      | some e => .ok e
      | none => .error (.notFound index c.idOf)  -- unreachable: index is in bounds

/-- `selectAsFunction(root, selector, index)` from `PageObject2.js`; the
caller-supplied selector function receives the container and the index and
returns an element list (or `null`, modelled by `none`). -/
def selectAsFunction (doc : Dom) (root : RootSpec)
    (sel : Dom → Int → Option (List Dom)) (index : Int) : Except SelErr Dom :=
  match getContainer doc root with
  | none => .error .noContainer
  | some c =>
    match sel c index with
    | none => .error (.notFound index c.idOf)
    | some list =>
      if list.length = 0 ∨ (index : Int) > (list.length : Int) - 1 ∨ index < 0 then
        .error (.notFound index c.idOf)
      else
        match list.get? index.toNat with
        | some e => .ok e
        | none => .error (.notFound index c.idOf)  -- unreachable: index is in bounds

/-- The selector argument of `makeSelector`: a function, a string, or
anything else (a literal element) returned as-is. -/
inductive MSel where
  | fnSel (f : Dom → Int → Option (List Dom))
  | strSel (s : Sel)
  | litSel (e : Dom)

/-- The `element` getter installed on the callable returned by
`makeSelector(selector, root, index)`. -/
def makeSelectorElement (doc : Dom) (sel : MSel) (root : RootSpec) (index : Int) :
    Except SelErr Dom :=
  match sel with
  | .fnSel f => selectAsFunction doc root f index
  | .strSel s => selectAsString doc root s index
  | .litSel e => .ok e

/-- The `text` getter of `makeSelector`: `s.element.textContent.trim()`. -/
def makeSelectorText (doc : Dom) (sel : MSel) (root : RootSpec) (index : Int) :
    Except SelErr String :=
  (makeSelectorElement doc sel root index).map (fun e => jsTrim e.data.text)

/-- Reading a property off a raw DOM element (the forwarding branch of the
proxy). Only the properties the claims exercise are modelled; a DOM element
has no `exists` property, so that read yields `undefined`. -/
def elemProp (e : Dom) (prop : String) : JsVal :=
  if prop = "textContent" then .str e.data.text
  else if prop = "value" then .str e.data.value
  else if prop = "checked" then .bool e.data.checked
  else .undefined

/-- The own/known properties of the callable `s` built by `makeSelector`
(`element` and `text` are getters, `click` and `forEach` are methods), the
properties for which the proxy's `get` trap answers `prop in target`. -/
def makeSelectorKnownProps : List String := ["element", "text", "click", "forEach"]

/-- The `get` trap of the `Proxy` returned by `makeSelector`: a known
property is served from the target (running its getter); any other property
evaluates `target.element` — propagating its not-found exception — and then
forwards the read to the resolved element, degrading falsy values to
`undefined` (`if (!attr) return;`). -/
def makeSelectorGet (doc : Dom) (sel : MSel) (root : RootSpec) (index : Int)
    (prop : String) : Except SelErr JsVal :=
  if prop ∈ makeSelectorKnownProps then
    if prop = "element" then (makeSelectorElement doc sel root index).map .el
    else if prop = "text" then (makeSelectorText doc sel root index).map .str
    else .ok .fnVal  -- `click` and `forEach` are function-valued own properties
  else
    match makeSelectorElement doc sel root index with
    | .error e => .error e
    | .ok el =>
      let attr := elemProp el prop
      if jsFalsy attr then .ok .undefined
      else .ok attr

/-! ## `PageSelector` (`src/unnamed/part_000`; where its methods differ from
the older `src/src/PageSelector.js` revision this is noted per method) -/

/-- A `PageSelector` instance: the bound selector (`none` models the `null`
self-selector produced by `nth`) and the scoping root (`none` models an
`undefined` root, as produced by `nth` with an out-of-range index). -/
structure PageSelector where
  selector : Option Sel
  root : Option Dom

/-- The `element` getter (`part_000` revision): with a selector, query the
root; with the `null` self-selector, return the root itself. (The older
`PageSelector.js` always queries and lacks the self-selector branch; no
claim exercises that difference.) A `null` root with a selector would throw
in JavaScript; the claims only evaluate `element` with a present root. -/
def PageSelector.element (ps : PageSelector) : Option Dom :=
  match ps.selector with
  | some s =>
    match ps.root with
    | some r => querySelector r s
    | none => none
  | none => ps.root

/-- The `allElements` getter: `this.root.querySelectorAll(this.selector)`.
Only evaluated with a present root and selector by the code paths under
claim. -/
def PageSelector.allElements (ps : PageSelector) : List Dom :=
  match ps.root, ps.selector with
  | some r, some s => querySelectorAll r s
  | _, _ => []

/-- The `count` getter: `this.allElements.length`. -/
def PageSelector.count (ps : PageSelector) : Nat :=
  ps.allElements.length

/-- The `exists` getter: `!!this.element`. -/
def PageSelector.exists (ps : PageSelector) : Bool :=
  ps.element.isSome

/-- `elementAt(index)`: returns the produced value together with whether the
`console.error` diagnostic was emitted. The guard mirrors the source
truthiness chain `elements && elements.length && elements.length >= index`
(a NodeList is always truthy; `elements.length` is truthy iff nonzero). -/
def PageSelector.elementAt (ps : PageSelector) (index : Int) : JsVal × Bool :=
  let elements := ps.allElements
  if elements.length ≠ 0 ∧ index ≤ (elements.length : Int) then
    (jsIndexList elements index, false)
  else if index = 0 then
    (match ps.element with
     | some e => .el e
     | none => .jsNull, false)
  else
    (.jsNull, true)

/-- `getValueForElement(element)`: the control value for `INPUT`, `TEXTAREA`
and `SELECT` tags, the trimmed text content otherwise, `undefined` for a
missing element. -/
def getValueForElement : Option Dom → Option String
  | some e =>
    let tag := e.data.tag
    if tag = "INPUT" ∨ tag = "TEXTAREA" ∨ tag = "SELECT" then some e.data.value
    else some (jsTrim e.data.text)
  | none => none

/-- The `value` getter: `getValueForElement(this.element)`. -/
def PageSelector.value (ps : PageSelector) : Option String :=
  getValueForElement ps.element

/-- The `text` getter: `return this.value`. -/
def PageSelector.text (ps : PageSelector) : Option String :=
  ps.value

/-- The `value` setter, returning the list of events dispatched through
`fireEvent` and the list of `console.error` diagnostics emitted. The setter
body has no throwing statement: it either fires exactly one change event
(carrying the new value) or logs. -/
def PageSelector.setValue (ps : PageSelector) (v : String) :
    List DomEvent × List String :=
  match ps.element with
  | some el =>
    let tag := el.data.tag
    if tag = "INPUT" ∨ tag = "TEXTAREA" ∨ tag = "SELECT" then
      ([.change v], [])
    else
      ([], ["Cannot set the value of a non-input element."])
  | none => ([], ["does not exist and thus cannot be set."])

/-- `clickElement(el)` (`part_000` revision), returning the event dispatched
through `simulateAction`/`fireEvent`. The `BUTTON` branch dispatches a click
for both the submit and the non-submit sub-branch, exactly as the source
does. -/
def PageSelector.clickElement (d : ElemData) : DomEvent :=
  if d.tag = "INPUT" then
    if d.type = "checkbox" ∨ d.type = "radio" then .click
    else if d.type ≠ "submit" then .focus
    else .submit
  else if d.tag = "BUTTON" then
    if d.type = "submit" then .click else .click
  else .click

/-- `clickElement(el)` as in the older `src/src/PageSelector.js` revision,
which lacks the checkbox/radio case. -/
def clickElementLegacy (d : ElemData) : DomEvent :=
  if d.tag = "INPUT" then
    if d.type ≠ "submit" then .focus else .submit
  else if d.tag = "BUTTON" then
    if d.type = "submit" then .click else .click
  else .click

/-- Modelled from the spec: the external event-dispatch collaborator
(`@testing-library`'s `fireEvent`, excluded from src) — dispatching a click
on a checkbox or radio input toggles its `checked` flag as the platform
side effect; every other event leaves the element unchanged. -/
def dispatchEffect (ev : DomEvent) (d : ElemData) : ElemData :=
  if ev = .click ∧ d.tag = "INPUT" ∧ (d.type = "checkbox" ∨ d.type = "radio") then
    ⟨d.tag, d.type, d.value, d.text, !d.checked⟩
  else d

/-- Modelled from the spec: the external platform behaviour by which a
dispatched event reaches a form's submit handler — a submit event does, and
a click on a submit-type button bubbles up to trigger the owning form's
submit. -/
def triggersSubmitHandler (ev : DomEvent) (d : ElemData) : Bool :=
  match ev with
  | .submit => true
  | .click => d.tag == "BUTTON" && d.type == "submit"
  | _ => false

/-- `nth(index)`: a new `PageSelector` with the `null` self-selector whose
root is `this.allElements[index]` (`undefined` when out of range). -/
def PageSelector.nth (ps : PageSelector) (index : Int) : PageSelector :=
  ⟨none,
   match jsIndexList ps.allElements index with
   | .el e => some e
   | _ => none⟩

/-- `nthChild(index)` (`part_000` revision): augments the selector with a
1-based `:nth-child(index + 1)` constraint against the same root. (With a
`null` selector JavaScript would interpolate the string "null", an invalid
selector; no claim exercises that, and the model keeps the selector absent.) -/
def PageSelector.nthChild (ps : PageSelector) (index : Nat) : PageSelector :=
  match ps.selector with
  | some s => ⟨some (.nthKid s (index + 1)), ps.root⟩
  | none => ⟨none, ps.root⟩

/-! ## `src/src/util.js`: `doWait` and `waitForMe`

Time is an idealized discrete clock: a callback scheduled by
`setTimeout(f, d)` at time `now` runs at time `now + d`, and `Date.now()`
inside it reads that fire time.  The condition callback is modelled as a
boolean function of the current time (`true` = the JavaScript callback
returns, `false` = it throws).  The promise is modelled by the returned
pair: the outcome it is settled with, exactly once, and the time of
settlement. -/

inductive WaitOutcome where
  | resolved
  | rejected
deriving DecidableEq

/-- `doWait(cb, end, timeout, resolve, reject)`: fire after `timeout`; if
`cb` passes, resolve; otherwise reject when past the deadline, else retry
after 60ms. -/
def doWait (cb : Nat → Bool) (endT timeout now : Nat) : WaitOutcome × Nat :=
  if cb (now + timeout) then (.resolved, now + timeout)
  else if _h : endT < now + timeout then (.rejected, now + timeout)
  else doWait cb endT 60 (now + timeout)
termination_by endT + 1 - (now + timeout)
decreasing_by omega

/-- `waitForMe(cb, timeout)` invoked at clock time `start` (the source reads
`Date.now()`): check synchronously, resolve on success, otherwise poll via
`doWait` with an immediate (0ms) first retry. -/
def waitForMe (cb : Nat → Bool) (timeout start : Nat) : WaitOutcome × Nat :=
  let endT := start + timeout
  if cb start then (.resolved, start)
  else doWait cb endT 0 start

/-! ## Concrete documents for witnesses and counterexamples -/

/-- A plain `<div>Foo</div>`-like element. -/
def divData : ElemData := ⟨"DIV", "", "", "Foo", false⟩

def divData2 : ElemData := ⟨"DIV", "", "", "Bar", false⟩

def divData3 : ElemData := ⟨"DIV", "", "", "Baz", false⟩

def spanData : ElemData := ⟨"SPAN", "", "", "S", false⟩

def bodyData : ElemData := ⟨"BODY", "", "", "", false⟩

def htmlData : ElemData := ⟨"HTML", "", "", "", false⟩

def checkboxData : ElemData := ⟨"INPUT", "checkbox", "", "", false⟩

def textInputData : ElemData := ⟨"INPUT", "text", "hello", "", false⟩

def submitInputData : ElemData := ⟨"INPUT", "submit", "Submit", "", false⟩

def submitButtonData : ElemData := ⟨"BUTTON", "submit", "", "Go", false⟩

/-- Matches every element whose tag is `DIV`. -/
def selDiv : Sel := .base (fun d => d.tag == "DIV")

/-- Matches every element whose tag is `SPAN`. -/
def selSpan : Sel := .base (fun d => d.tag == "SPAN")

def fooDiv1 : Dom := .node 1 divData []

def fooDiv2 : Dom := .node 2 divData2 []

def fooDiv3 : Dom := .node 3 divData3 []

/-- `<body><div>Foo</div><div>Bar</div><div>Baz</div></body>`: a document
with three sibling matches for `selDiv`. -/
def doc3 : Dom := .node 0 bodyData [fooDiv1, fooDiv2, fooDiv3]

def div1 : Dom := .node 1 divData []

/-- The single-match document `<body><div>Foo</div></body>`. -/
def doc1 : Dom := .node 0 bodyData [div1]

/-- A body containing one div, to be placed under `docB`'s html root. -/
def bodyB : Dom := .node 1 bodyData [.node 2 divData []]

/-- `<html><body><div>Foo</div></body></html>`: a document in which `bodyB`
has a parent element but nothing matches `selSpan`. -/
def docB : Dom := .node 0 htmlData [bodyB]

/-! ## Theorems -/

/-- C1: for every CSS-string or function selector whose resolution under a
non-null root yields a list of `N ≥ 1` matching elements, requesting element
access at any index `i ≥ N` or `i < 0` fails with the thrown
element-not-found error (an `Except.error`, never a silently returned
null/`Except.ok`). -/
theorem select_out_of_range_throws (doc : Dom) (root : RootSpec) (c : Dom)
    (hc : getContainer doc root = some c) (index : Int) :
    (∀ s : Sel, 0 < (querySelectorAll c s).length →
      (index ≥ ((querySelectorAll c s).length : Int) ∨ index < 0) →
      selectAsString doc root s index = .error (.notFound index c.idOf)) ∧
    (∀ (f : Dom → Int → Option (List Dom)) (l : List Dom), f c index = some l →
      0 < l.length → (index ≥ (l.length : Int) ∨ index < 0) →
      selectAsFunction doc root f index = .error (.notFound index c.idOf)) := by
  constructor
  · intro s hlen hout
    unfold selectAsString
    rw [hc]
    simp only
    rw [if_neg (by omega), if_pos (by omega)]
  · intro f l hf hlen hout
    unfold selectAsFunction
    rw [hc]
    dsimp only
    rw [hf]
    dsimp only
    rw [if_pos (by omega)]

/-- Witness for C1: in `<body><div/><div/><div/></body>` the selector
matching the three divs, requested at index 5, throws the not-found error. -/
theorem select_out_of_range_throws_witness :
    selectAsString doc3 (.el (some doc3)) selDiv 5 =
      .error (.notFound 5 doc3.idOf) := by
  have h := select_out_of_range_throws doc3 (.el (some doc3)) doc3 rfl 5
  refine (h.1 selDiv ?_ ?_) <;>
    simp [querySelectorAll, descendList, doc3, fooDiv1, fooDiv2, fooDiv3,
      Dom.kids, Dom.data, selMatches, divData, divData2, divData3, bodyData, selDiv]

/-- C10: in string-selector resolution, when the selector matches zero
descendants of the resolved container but the first match of the selector
under the container's parent element is the container itself (the source's
`c.parentElement.querySelector(selector) === c` check, node identity taken
by id), resolution returns the container — for every requested index,
including out-of-range ones. -/
theorem selectAsString_container_fallback (doc : Dom) (root : RootSpec)
    (sel : Sel) (c par fp : Dom)
    (hc : getContainer doc root = some c)
    (h0 : querySelectorAll c sel = [])
    (hp : parentElement doc c = some par)
    (hq : querySelector par sel = some fp)
    (hid : fp.idOf = c.idOf) :
    ∀ index : Int, selectAsString doc root sel index = .ok c := by
  intro index
  unfold selectAsString
  rw [hc]
  dsimp only
  rw [h0]
  simp only [List.length_nil, if_pos rfl]
  rw [hp]
  dsimp only
  rw [hq]
  dsimp only
  rw [if_pos hid, if_pos trivial]

/-- Witness for C10: with the container being the single `<div>` of `doc1`
and the selector matching divs, the div has no matching descendants but is
the first match under its parent `<body>`; resolution at the out-of-range
index 7 still returns the container itself. -/
theorem selectAsString_container_fallback_witness :
    selectAsString doc1 (.el (some div1)) selDiv 7 = .ok div1 := by
  refine selectAsString_container_fallback doc1 (.el (some div1)) selDiv
    div1 doc1 div1 rfl ?_ ?_ ?_ rfl 7
  · simp [querySelectorAll, descendList, div1, Dom.kids]
  · simp [parentElement, findParentL, doc1, div1, Dom.idOf]
  · simp [querySelector, querySelectorAll, descendList, doc1, div1, Dom.kids,
      Dom.data, selMatches, selDiv, divData]

/-- C4 (code bug): `elementAt(i)` is documented — both in the spec and in the
method's own doc comment — to return the element for an in-bounds `i`, the
directly resolved element for `i = 0`, and otherwise `null` together with a
diagnostic. The code's guard `elements.length >= index` is off by one: on a
singleton match list, `elementAt(1)` takes the in-bounds branch and returns
`elements[1]`, which is `undefined` — not `null` — and emits no diagnostic.
This theorem evaluates the embedded code at that failing input. -/
theorem elementAt_off_by_one :
    PageSelector.elementAt ⟨some selDiv, some doc1⟩ 1 = (.undefined, false) := by
  have hall : PageSelector.allElements ⟨some selDiv, some doc1⟩ = [div1] := by
    simp [PageSelector.allElements, querySelectorAll, descendList, doc1, div1,
      Dom.kids, Dom.data, selMatches, selDiv, divData, bodyData]
  unfold PageSelector.elementAt
  rw [hall]
  norm_num [jsIndexList]

/-- C6, counterexample: the claim states that reading `value` on a resolved
non-control element yields its trimmed text content and that reading `text`
always returns the same string as reading `value`; but on the proxy built by
`PageObject2.js`'s `makeSelector` (one of the claim's cited sources), `text`
is unconditionally the trimmed `textContent` while `value` is not an own
property and forwards to the raw DOM `value` property. On the resolved
`<div>Foo</div>` the `text` read is the string "Foo" while the `value` read
is `undefined` (a div's `value` is absent, and the trap degrades falsy
forwarded values to `undefined`) — so `value` is not the trimmed text there,
and `text` is not an alias for `value`. -/
theorem makeSelector_text_not_value :
    makeSelectorGet doc1 (.strSel selDiv) (.el (some doc1)) 0 "text" =
      .ok (.str "Foo") ∧
    makeSelectorGet doc1 (.strSel selDiv) (.el (some doc1)) 0 "value" =
      .ok .undefined ∧
    JsVal.str "Foo" ≠ JsVal.undefined := by
  have helem : makeSelectorElement doc1 (.strSel selDiv) (.el (some doc1)) 0 =
      .ok div1 := by
    unfold makeSelectorElement
    dsimp only
    have hl : querySelectorAll doc1 selDiv = [div1] := by
      simp [querySelectorAll, descendList, doc1, div1, Dom.kids, Dom.data,
        selMatches, selDiv, divData, bodyData]
    unfold selectAsString
    dsimp only [getContainer]
    rw [hl]
    simp
  refine ⟨?_, ?_, ?_⟩
  · unfold makeSelectorGet
    rw [if_pos (by decide), if_neg (by decide), if_pos rfl]
    unfold makeSelectorText
    rw [helem]
    show Except.ok (JsVal.str (jsTrim div1.data.text)) = .ok (.str "Foo")
    rw [show jsTrim div1.data.text = "Foo" from by decide]
  · unfold makeSelectorGet
    rw [if_neg (by decide)]
    rw [helem]
    dsimp only
    have hep : elemProp div1 "value" = .str div1.data.value := by
      unfold elemProp
      rw [if_neg (by decide), if_pos rfl]
    rw [hep]
    simp [jsFalsy, div1, divData, Dom.data]
  · intro h
    simp at h

/-- C6, amended: reading `value` and `text` on a `PageSelector` follows the
kind policy — `value` is the control value for `INPUT`, `TEXTAREA` and
`SELECT` tags and the trimmed text content otherwise, and `text` is an alias
for `value` (it literally returns the `value` read). On the `makeSelector`
proxy of `PageObject2.js`, by contrast, the `text` getter is unconditionally
the resolved element's trimmed text content, while a `value` read is not an
own property and forwards to the raw DOM `value` property of the resolved
element (degraded to `undefined` when that value is falsy), so `text` is not
an alias for `value` there. -/
theorem value_text_policy :
    (∀ (ps : PageSelector) (e : Dom), ps.element = some e →
      ps.value = some (if e.data.tag = "INPUT" ∨ e.data.tag = "TEXTAREA" ∨
          e.data.tag = "SELECT" then e.data.value else jsTrim e.data.text)) ∧
    (∀ ps : PageSelector, ps.text = ps.value) ∧
    (∀ (doc : Dom) (sel : MSel) (root : RootSpec) (index : Int),
      makeSelectorGet doc sel root index "text" =
        (makeSelectorElement doc sel root index).map
          (fun e => .str (jsTrim e.data.text)) ∧
      makeSelectorGet doc sel root index "value" =
        (makeSelectorElement doc sel root index).map
          (fun e => if e.data.value = "" then .undefined
                    else .str e.data.value)) := by
  refine ⟨?_, ?_, ?_⟩
  · intro ps e he
    unfold PageSelector.value getValueForElement
    rw [he]
    dsimp only
    split <;> rfl
  · intro ps
    rfl
  · intro doc sel root index
    constructor
    · unfold makeSelectorGet
      rw [if_pos (by decide), if_neg (by decide), if_pos rfl]
      unfold makeSelectorText
      cases hmk : makeSelectorElement doc sel root index with
      | error e => simp [Except.map]
      | ok el => simp [Except.map]
    · unfold makeSelectorGet
      rw [if_neg (by decide)]
      cases hmk : makeSelectorElement doc sel root index with
      | error e => simp [Except.map]
      | ok el =>
        dsimp only
        have hep : elemProp el "value" = .str el.data.value := by
          unfold elemProp
          rw [if_neg (by decide), if_pos rfl]
        rw [hep]
        by_cases hv : el.data.value = ""
        · simp [jsFalsy, hv, Except.map]
        · simp [jsFalsy, hv, Except.map]

/-- Witness for C6 (amended): the resolved `<div>Foo</div>` is not a form
control, so the `PageSelector` `value` is its trimmed text, and `text`
agrees. -/
theorem value_text_policy_witness :
    PageSelector.value ⟨some selDiv, some doc1⟩ = some "Foo" ∧
    PageSelector.text ⟨some selDiv, some doc1⟩ =
      PageSelector.value ⟨some selDiv, some doc1⟩ := by
  constructor
  · have he : PageSelector.element ⟨some selDiv, some doc1⟩ = some div1 := by
      simp [PageSelector.element, querySelector, querySelectorAll, descendList,
        doc1, div1, Dom.kids, Dom.data, selMatches, selDiv, divData, bodyData]
    rw [value_text_policy.1 ⟨some selDiv, some doc1⟩ div1 he]
    simp [div1, divData, Dom.data]
    decide
  · exact value_text_policy.2.1 ⟨some selDiv, some doc1⟩

/-- C7: assigning `value` on a proxy whose resolved element is a form
control (`INPUT`, `TEXTAREA`, `SELECT`) dispatches exactly one change event
carrying the new value and logs nothing; on a resolved non-control element,
or when no element resolves, it dispatches nothing (leaving the DOM
unchanged) and emits exactly one diagnostic. The setter is a total function
here — the embedded body has no throwing statement on any path. -/
theorem setValue_policy (ps : PageSelector) (v : String) :
    (∀ e : Dom, ps.element = some e →
      (e.data.tag = "INPUT" ∨ e.data.tag = "TEXTAREA" ∨ e.data.tag = "SELECT") →
      ps.setValue v = ([.change v], [])) ∧
    (∀ e : Dom, ps.element = some e →
      ¬(e.data.tag = "INPUT" ∨ e.data.tag = "TEXTAREA" ∨ e.data.tag = "SELECT") →
      (ps.setValue v).1 = [] ∧ (ps.setValue v).2.length = 1) ∧
    (ps.element = none → (ps.setValue v).1 = [] ∧ (ps.setValue v).2.length = 1) := by
  refine ⟨?_, ?_, ?_⟩
  · intro e he hctrl
    unfold PageSelector.setValue
    rw [he]
    simp only [if_pos hctrl]
  · intro e he hctrl
    unfold PageSelector.setValue
    rw [he]
    dsimp only
    rw [if_neg hctrl]
    simp
  · intro he
    unfold PageSelector.setValue
    rw [he]
    simp

/-- Witness for C7: on a resolved text input, setting the value dispatches
exactly the one change event carrying it. -/
theorem setValue_policy_witness :
    PageSelector.setValue ⟨none, some (.node 9 textInputData [])⟩ "X" =
      ([.change "X"], []) := by
  exact (setValue_policy ⟨none, some (.node 9 textInputData [])⟩ "X").1
    (.node 9 textInputData []) rfl (by simp [Dom.data, textInputData])

/-- C2, counterexample: the claim states that `clickElement` dispatches a
click for a checkbox input, but the `src/src/PageSelector.js` revision of
`clickElement` (one of the claim's two cited implementations) has no
checkbox/radio case: on an input of type `checkbox` it dispatches a focus
event, not a click. -/
theorem clickElementLegacy_checkbox_focus :
    clickElementLegacy checkboxData = .focus ∧ DomEvent.focus ≠ DomEvent.click := by
  exact ⟨rfl, by decide⟩

/-- C2, amended: the current (`src/unnamed/part_000`) `clickElement` follows
the dispatch policy table exactly — checkbox/radio input → click, submit
input → submit, any other input → focus, submit button (and any other
element) → click — so that, under the platform dispatch semantics, clicking
an unchecked checkbox toggles `checked` to true and clicking a submit-type
input or button triggers a submit handler. (The legacy
`src/src/PageSelector.js` revision instead dispatches focus for
checkbox/radio inputs.) -/
theorem clickElement_policy (d : ElemData) :
    (d.tag = "INPUT" → (d.type = "checkbox" ∨ d.type = "radio") →
      PageSelector.clickElement d = .click) ∧
    (d.tag = "INPUT" → d.type = "submit" → PageSelector.clickElement d = .submit) ∧
    (d.tag = "INPUT" → d.type ≠ "checkbox" → d.type ≠ "radio" → d.type ≠ "submit" →
      PageSelector.clickElement d = .focus) ∧
    (d.tag = "BUTTON" → PageSelector.clickElement d = .click) ∧
    (d.tag ≠ "INPUT" → d.tag ≠ "BUTTON" → PageSelector.clickElement d = .click) ∧
    (d.tag = "INPUT" → d.type = "checkbox" → d.checked = false →
      (dispatchEffect (PageSelector.clickElement d) d).checked = true) ∧
    ((d.tag = "INPUT" ∨ d.tag = "BUTTON") → d.type = "submit" →
      triggersSubmitHandler (PageSelector.clickElement d) d = true) := by
  unfold PageSelector.clickElement
  refine ⟨?_, ?_, ?_, ?_, ?_, ?_, ?_⟩
  · intro ht hty
    rw [if_pos ht, if_pos hty]
  · intro ht hty
    rw [if_pos ht, if_neg (by simp [hty]), if_neg (by simp [hty])]
  · intro ht h1 h2 h3
    rw [if_pos ht, if_neg (by simp [h1, h2]), if_pos h3]
  · intro ht
    rw [if_neg (by simp [ht]), if_pos ht]
    split <;> rfl
  · intro h1 h2
    rw [if_neg h1, if_neg h2]
  · intro ht hty hch
    rw [if_pos ht, if_pos (Or.inl hty)]
    simp [dispatchEffect, ht, hty, hch]
  · rintro (ht | ht) hty
    · rw [if_pos ht, if_neg (by simp [hty]), if_neg (by simp [hty])]
      simp [triggersSubmitHandler]
    · rw [if_neg (by simp [ht]), if_pos ht, if_pos hty]
      simp [triggersSubmitHandler, ht, hty]

/-- Witness for C2 (amended): clicking an unchecked checkbox input
dispatches a click, which toggles `checked` to true under the platform
model. -/
theorem clickElement_policy_witness :
    PageSelector.clickElement checkboxData = .click ∧
    (dispatchEffect (PageSelector.clickElement checkboxData) checkboxData).checked = true := by
  refine ⟨(clickElement_policy checkboxData).1 rfl (Or.inl rfl), ?_⟩
  exact (clickElement_policy checkboxData).2.2.2.2.2.1 rfl rfl rfl

/-- C5, counterexample: the claim states that reading `exists` on any proxy
never lets a not-found error escape, but on the proxy built by
`PageObject2.js`'s `makeSelector`, `exists` is not an own property, so the
`get` trap forwards it through `target.element` — which throws the
element-not-found error when the selector matches nothing (here: a span
selector in a document containing only a body and a div). -/
theorem makeSelector_exists_throws :
    makeSelectorGet docB (.strSel selSpan) (.el (some bodyB)) 0 "exists" =
      .error (.notFound 0 1) := by
  have hresolve : selectAsString docB (.el (some bodyB)) selSpan 0 =
      .error (.notFound 0 1) := by
    unfold selectAsString
    have h0 : querySelectorAll bodyB selSpan = [] := by
      simp [querySelectorAll, descendList, bodyB, Dom.kids, Dom.data,
        selMatches, selSpan, divData]
    dsimp only [getContainer]
    rw [h0]
    simp only [List.length_nil, if_pos rfl]
    have hp : parentElement docB bodyB = some docB := by
      simp [parentElement, findParentL, docB, bodyB, Dom.idOf]
    rw [hp]
    dsimp only
    have hq : querySelector docB selSpan = none := by
      simp [querySelector, querySelectorAll, descendList, docB, bodyB,
        Dom.kids, Dom.data, selMatches, selSpan, divData, bodyData]
    rw [hq]
    simp [bodyB, Dom.idOf]
  unfold makeSelectorGet
  rw [if_neg (by decide)]
  unfold makeSelectorElement
  dsimp only
  rw [hresolve]

/-- C5, amended: reading `exists` on a `PageSelector` returns `false` when
the selector matches nothing in the root, `true` when it matches, and never
throws (the getter is the total boolean `!!this.element`); reading `exists`
on a `makeSelector` proxy instead forwards through the element accessor:
it propagates the element-not-found error whenever resolution fails, and
yields `undefined` (not `true`) when resolution succeeds. -/
theorem exists_policy :
    (∀ (r : Dom) (s : Sel),
      (querySelectorAll r s = [] → PageSelector.exists ⟨some s, some r⟩ = false) ∧
      (querySelectorAll r s ≠ [] → PageSelector.exists ⟨some s, some r⟩ = true)) ∧
    (∀ (doc : Dom) (sel : MSel) (root : RootSpec) (index : Int),
      makeSelectorGet doc sel root index "exists" =
        (makeSelectorElement doc sel root index).map (fun _ => .undefined)) := by
  constructor
  · intro r s
    constructor
    · intro h
      simp [PageSelector.exists, PageSelector.element, querySelector, h]
    · intro h
      simp [PageSelector.exists, PageSelector.element, querySelector, h]
  · intro doc sel root index
    unfold makeSelectorGet
    rw [if_neg (by decide)]
    cases h : makeSelectorElement doc sel root index with
    | error e => simp [Except.map]
    | ok el => simp [elemProp, jsFalsy, Except.map]

/-- Witness for C5 (amended): in `doc1` no span matches, so `exists` on the
`PageSelector` is `false`. -/
theorem exists_policy_witness :
    PageSelector.exists ⟨some selSpan, some doc1⟩ = false := by
  refine (exists_policy.1 doc1 selSpan).1 ?_
  simp [querySelectorAll, descendList, doc1, div1, Dom.kids, Dom.data,
    selMatches, selSpan, divData]

/-- C3: for every (selector, root) pair with `N ≥ 1` matches, `count` equals
`N`; `allElements` is exactly the match list — every matching descendant, as
a subsequence of the full pre-order (document-order) traversal; and for
every `0 ≤ i < N` the index-call proxy `proxy(i)` resolves through its
element accessor (`selectAsString` at index `i`) to `allElements[i]`. -/
theorem proxy_enumerates_matches (doc : Dom) (root : RootSpec) (s : Sel)
    (c : Dom) (l : List Dom)
    (hc : getContainer doc root = some c)
    (hl : querySelectorAll c s = l) (hN : 0 < l.length) :
    PageSelector.count ⟨some s, some c⟩ = l.length ∧
    PageSelector.allElements ⟨some s, some c⟩ = l ∧
    l.Sublist ((descendList c.kids 1).map (·.2)) ∧
    (∀ e, e ∈ l ↔ ∃ pos, (pos, e) ∈ descendList c.kids 1 ∧
      selMatches s pos e.data = true) ∧
    (∀ i : Nat, i < l.length →
      selectAsString doc root s (i : Int) = (l.get? i).elim (.error .typeErr) .ok) := by
  refine ⟨?_, ?_, ?_, ?_, ?_⟩
  · simp [PageSelector.count, PageSelector.allElements, hl]
  · simp [PageSelector.allElements, hl]
  · rw [← hl]
    unfold querySelectorAll
    exact ((descendList c.kids 1).filter_sublist).map _
  · intro e
    rw [← hl]
    unfold querySelectorAll
    simp only [List.mem_map, List.mem_filter]
    constructor
    · rintro ⟨⟨pos, e'⟩, ⟨hmem, hsel⟩, rfl⟩
      exact ⟨pos, hmem, hsel⟩
    · rintro ⟨pos, hmem, hsel⟩
      exact ⟨(pos, e), ⟨hmem, hsel⟩, rfl⟩
  · intro i hi
    unfold selectAsString
    rw [hc]
    dsimp only
    rw [hl]
    rw [if_neg (by omega), if_neg (by omega)]
    have : (i : Int).toNat = i := Int.toNat_natCast i
    rw [this, List.get?_eq_get hi]
    rfl

/-- Witness for C3: in the three-div document the proxy counts 3 matches and
index 1 resolves to the second div. -/
theorem proxy_enumerates_matches_witness :
    PageSelector.count ⟨some selDiv, some doc3⟩ = 3 ∧
    selectAsString doc3 (.el (some doc3)) selDiv 1 = .ok fooDiv2 := by
  have hl : querySelectorAll doc3 selDiv = [fooDiv1, fooDiv2, fooDiv3] := by
    simp [querySelectorAll, descendList, doc3, fooDiv1, fooDiv2, fooDiv3,
      Dom.kids, Dom.data, selMatches, selDiv, divData, divData2, divData3,
      bodyData]
  have h := proxy_enumerates_matches doc3 (.el (some doc3)) selDiv doc3
    [fooDiv1, fooDiv2, fooDiv3] rfl hl (by simp)
  refine ⟨h.1, ?_⟩
  have h5 := h.2.2.2.2 1 (by simp)
  simpa using h5

/-- In a "simple" scope — every node of `cs` matches the base predicate `p`
and none of their descendants does — the matching entries of the pre-order
traversal are exactly the nodes of `cs` with their sibling positions. -/
theorem filter_descend_base (p : ElemData → Bool) :
    ∀ (cs : List Dom) (s0 : Nat),
      (∀ c ∈ cs, p c.data = true) →
      (∀ c ∈ cs, querySelectorAll c (.base p) = []) →
      (descendList cs s0).filter
          (fun pd => selMatches (.base p) pd.1 pd.2.data) =
        List.enumFrom s0 cs := by
  intro cs
  induction cs with
  | nil => intro s0 _ _; simp [descendList]
  | cons c rest ih =>
    intro s0 hall hdeep
    obtain ⟨i, d, k⟩ := c
    simp only [descendList]
    rw [List.filter_cons, List.filter_append]
    have hsub : (descendList k 1).filter
        (fun pd => selMatches (.base p) pd.1 pd.2.data) = [] := by
      have hq := hdeep (Dom.node i d k) (by simp)
      unfold querySelectorAll at hq
      simp only [Dom.kids] at hq
      exact List.map_eq_nil_iff.mp hq
    rw [hsub, ih (s0 + 1) (fun x hx => hall x (by simp [hx]))
      (fun x hx => hdeep x (by simp [hx]))]
    have hc : selMatches (.base p) s0 (Dom.node i d k).data = true :=
      hall (Dom.node i d k) (by simp)
    simp [hc, List.enumFrom]

/-- Filtering an `enumFrom` enumeration for a fixed position `k` keeps at
most the single entry at that position. -/
theorem enumFrom_filter_pos {α : Type} (cs : List α) :
    ∀ (s0 k : Nat),
      (List.enumFrom s0 cs).filter (fun pd => pd.1 == k) =
        if s0 ≤ k then ((cs.get? (k - s0)).map (fun e => (k, e))).toList
        else [] := by
  induction cs with
  | nil => intro s0 k; simp [List.enumFrom]
  | cons c rest ih =>
    intro s0 k
    have hstep : List.enumFrom s0 (c :: rest) =
        (s0, c) :: List.enumFrom (s0 + 1) rest := rfl
    rw [hstep, List.filter_cons, ih (s0 + 1) k]
    rcases Nat.lt_trichotomy s0 k with h | h | h
    · rw [if_neg (show ¬(((s0, c).1 == k) = true) by simp; omega),
        if_pos (show s0 + 1 ≤ k by omega),
        if_pos (show s0 ≤ k by omega)]
      have hidx : k - s0 = (k - (s0 + 1)) + 1 := by omega
      rw [hidx]
      simp
    · subst h
      rw [if_pos (show (((s0, c).1 == s0) = true) by simp),
        if_neg (show ¬(s0 + 1 ≤ s0) by omega),
        if_pos (le_refl s0)]
      simp
    · rw [if_neg (show ¬(((s0, c).1 == k) = true) by simp; omega),
        if_neg (show ¬(s0 + 1 ≤ k) by omega),
        if_neg (show ¬(s0 ≤ k) by omega)]

/-- As `filter_descend_base`, for the `:nth-child(k)` augmented selector:
in a simple scope the traversal contains exactly the position-`k` node of
`cs` (when it exists). -/
theorem filter_descend_nthKid (p : ElemData → Bool) (k : Nat)
    (cs : List Dom) (s0 : Nat)
    (hall : ∀ c ∈ cs, p c.data = true)
    (hdeep : ∀ c ∈ cs, querySelectorAll c (.base p) = []) :
    (descendList cs s0).filter
        (fun pd => selMatches (.nthKid (.base p) k) pd.1 pd.2.data) =
      if s0 ≤ k then ((cs.get? (k - s0)).map (fun e => (k, e))).toList
      else [] := by
  have hsplit : (descendList cs s0).filter
      (fun pd => selMatches (.nthKid (.base p) k) pd.1 pd.2.data) =
      ((descendList cs s0).filter
        (fun pd => selMatches (.base p) pd.1 pd.2.data)).filter
          (fun pd => pd.1 == k) := by
    rw [List.filter_filter]
    apply List.filter_congr
    intro pd _
    show selMatches (.nthKid (.base p) k) pd.1 pd.2.data =
      (pd.1 == k && selMatches (.base p) pd.1 pd.2.data)
    unfold selMatches
    exact Bool.and_comm _ _
  rw [hsplit, filter_descend_base p cs s0 hall hdeep, enumFrom_filter_pos]

/-- C9: `nth(i)` returns a new proxy whose scoping root is the i-th element
of the current resolution and whose own selector is the `null`
self-selector, so its element accessor returns that root directly; and in
the simple case where the matches of a base selector are exactly the root's
children (each child matches, no deeper descendant does), `nthChild(i)` —
which augments the selector with `:nth-child(i+1)` against the same root —
resolves to the same element as `nth(i)`. -/
theorem nth_self_selector (ps : PageSelector) :
    (∀ i : Nat, i < ps.count →
      (ps.nth i).selector = none ∧
      (ps.nth i).root = ps.allElements.get? i ∧
      (ps.nth i).element = ps.allElements.get? i) ∧
    (∀ (r : Dom) (p : ElemData → Bool),
      ps.root = some r → ps.selector = some (.base p) →
      (∀ c ∈ r.kids, p c.data = true) →
      (∀ c ∈ r.kids, querySelectorAll c (.base p) = []) →
      ∀ i : Nat, i < r.kids.length →
        (ps.nthChild i).element = r.kids.get? i ∧
        (ps.nth i).element = r.kids.get? i) := by
  constructor
  · intro i hi
    have hget : ps.allElements.get? i = some (ps.allElements.get ⟨i, hi⟩) :=
      List.get?_eq_get hi
    have hidx : jsIndexList ps.allElements (i : Int) =
        .el (ps.allElements.get ⟨i, hi⟩) := by
      unfold jsIndexList
      rw [if_neg (by omega), Int.toNat_natCast, hget]
    unfold PageSelector.nth
    rw [hidx]
    exact ⟨rfl, by simp [hget], by simp [PageSelector.element, hget]⟩
  · intro r p hr hs hall hdeep i hi
    have hqsa : querySelectorAll r (.base p) = r.kids := by
      unfold querySelectorAll
      rw [filter_descend_base p r.kids 1 hall hdeep, List.enumFrom_map_snd]
    constructor
    · unfold PageSelector.nthChild
      rw [hs]
      dsimp only
      rw [hr]
      unfold PageSelector.element
      dsimp only
      unfold querySelector querySelectorAll
      rw [filter_descend_nthKid p (i + 1) r.kids 1 hall hdeep,
        if_pos (show 1 ≤ i + 1 by omega)]
      rw [show i + 1 - 1 = i from rfl, List.get?_eq_get hi]
      simp
    · unfold PageSelector.nth
      have hall2 : ps.allElements = r.kids := by
        unfold PageSelector.allElements
        rw [hr, hs]
        exact hqsa
      rw [hall2]
      have hidx : jsIndexList r.kids (i : Int) = .el (r.kids.get ⟨i, hi⟩) := by
        unfold jsIndexList
        rw [if_neg (by omega), Int.toNat_natCast, List.get?_eq_get hi]
      rw [hidx]
      simp [PageSelector.element, List.get?_eq_get hi]

/-- Witness for C9: on the three-div document, `nth(1)` selects the second
div with the self-selector, and `nthChild(1)` resolves to the same element. -/
theorem nth_self_selector_witness :
    (PageSelector.nthChild ⟨some selDiv, some doc3⟩ 1).element = some fooDiv2 ∧
    (PageSelector.nth ⟨some selDiv, some doc3⟩ ((1 : Nat) : Int)).element =
      some fooDiv2 := by
  have h := (nth_self_selector ⟨some selDiv, some doc3⟩).2 doc3
    (fun d => d.tag == "DIV") rfl rfl ?_ ?_ 1 (by simp [doc3, Dom.kids])
  · have h2 : doc3.kids.get? 1 = some fooDiv2 := by
      simp [doc3, Dom.kids]
    exact ⟨by rw [h.1, h2], by rw [h.2, h2]⟩
  · intro c hc
    fin_cases hc <;> simp [fooDiv1, fooDiv2, fooDiv3, Dom.data, divData,
      divData2, divData3]
  · intro c hc
    fin_cases hc <;> simp [querySelectorAll, descendList, fooDiv1, fooDiv2,
      fooDiv3, Dom.kids]

/-- Invariant of the polling loop `doWait`: the settle time lies on the
check grid `now + timeout + 60·i`; a resolved outcome settles at a passing
check; a rejected outcome settles past the deadline at a failing check; and
every grid point strictly before the settle time was a failing check that
was still within the deadline (so no retry is ever scheduled from a check
past the deadline). -/
theorem doWait_spec (cb : Nat → Bool) (endT : Nat) :
    ∀ timeout now : Nat,
      (∃ i, (doWait cb endT timeout now).2 = now + timeout + 60 * i) ∧
      ((doWait cb endT timeout now).1 = .resolved →
        cb (doWait cb endT timeout now).2 = true) ∧
      ((doWait cb endT timeout now).1 = .rejected →
        endT < (doWait cb endT timeout now).2 ∧
        cb (doWait cb endT timeout now).2 = false) ∧
      (∀ u, (∃ i, u = now + timeout + 60 * i) →
        u < (doWait cb endT timeout now).2 → cb u = false ∧ u ≤ endT) := by
  intro timeout now
  induction timeout, now using doWait.induct cb endT with
  | case1 timeout now hcb =>
    rw [doWait]
    simp only [if_pos hcb]
    refine ⟨⟨0, by omega⟩, fun _ => hcb, fun hr => absurd hr (by decide), ?_⟩
    rintro u ⟨i, rfl⟩ hu
    omega
  | case2 timeout now hcb hend =>
    rw [doWait]
    simp only [if_neg hcb, dif_pos hend]
    refine ⟨⟨0, by omega⟩, fun hr => absurd hr (by decide),
      fun _ => ⟨hend, by simpa using hcb⟩, ?_⟩
    rintro u ⟨i, rfl⟩ hu
    omega
  | case3 timeout now hcb hend ih =>
    rw [doWait]
    simp only [if_neg hcb, dif_neg hend]
    obtain ⟨⟨i, hgrid⟩, hres, hrej, hall⟩ := ih
    refine ⟨⟨i + 1, by omega⟩, hres, hrej, ?_⟩
    rintro u ⟨j, rfl⟩ hu
    rcases Nat.eq_zero_or_pos j with hj | hj
    · subst hj
      simp only [Nat.mul_zero, Nat.add_zero]
      simp only [Nat.mul_zero, Nat.add_zero] at hu
      exact ⟨by simpa using hcb, by omega⟩
    · exact hall _ ⟨j - 1, by omega⟩ hu

/-- C8: `waitForMe(cb, timeout)` started at clock time `start` checks `cb`
immediately and then retries on the fixed grid `start + 60·k` (an immediate
0ms first retry, then 60ms delays); the returned promise is settled exactly
once, with the settle outcome and time given by the function's unique
result: if it resolves at `t` then the check at `t` passed, if it rejects at
`t` then the deadline `start + timeout` had been exceeded at `t` and the
check there failed, and every scheduled check before the settling one both
failed and lay within the deadline — no further retry is scheduled once the
deadline has passed. -/
theorem waitForMe_spec (cb : Nat → Bool) (timeout start : Nat)
    (r : WaitOutcome) (t : Nat) (h : waitForMe cb timeout start = (r, t)) :
    (∃ k, t = start + 60 * k) ∧
    (r = .resolved → cb t = true) ∧
    (∀ u, (∃ k, u = start + 60 * k) → u < t →
      cb u = false ∧ u ≤ start + timeout) ∧
    (r = .rejected → start + timeout < t ∧ cb t = false) := by
  unfold waitForMe at h
  by_cases hcb : cb start = true
  · rw [if_pos hcb] at h
    obtain ⟨rfl, rfl⟩ : r = .resolved ∧ t = start := by
      cases h; exact ⟨rfl, rfl⟩
    refine ⟨⟨0, by omega⟩, fun _ => hcb, ?_, fun hr => by cases hr⟩
    rintro u ⟨k, rfl⟩ hu
    omega
  · rw [if_neg hcb] at h
    have hd := doWait_spec cb (start + timeout) 0 start
    rw [h] at hd
    obtain ⟨⟨i, hgrid⟩, hres, hrej, hall⟩ := hd
    refine ⟨⟨i, by omega⟩, hres, ?_, hrej⟩
    rintro u ⟨k, rfl⟩ hu
    exact hall _ ⟨k, by omega⟩ hu

/-- A condition callback that always throws. -/
def cbNever : Nat → Bool := fun _ => false

/-- Witness for C8: with a 30ms timeout and an always-failing check, the
wait rejects at time 60 (checks at 0, 0 and 60; the check at 60 is past the
deadline, and no further retry happens), and the rejection is after the
deadline. -/
theorem waitForMe_spec_witness :
    (0 : Nat) + 30 < 60 ∧ cbNever 60 = false := by
  have h := waitForMe_spec cbNever 30 0 .rejected 60
    (by simp [waitForMe, doWait, cbNever])
  exact h.2.2.2 rfl

end PageObject
